import Mathlib

/-!
Verification of the interactive Bezier-curve repository.

The development shallowly embeds the curve mathematics (bezier.ts), the
spring physics (physics.ts) and the canvas component logic (BezierCanvas.tsx)
into Lean. JavaScript numbers are modelled by the real numbers for the
algebraic claims; a separate small IEEE-style domain JSNum (with a NaN
element) is used for the one claim that hinges on NaN propagation through
an unguarded division by zero. Time arithmetic of the frame scheduler is
over the rationals, which makes its concrete runs decidable.
-/

namespace BezierApp

noncomputable section

/-- A 2D point, field for field the Point interface of bezier.ts. -/
@[ext]
structure Point where
  x : ℝ
  y : ℝ

/-- bezierPoint from bezier.ts: cubic Bernstein evaluation at parameter t. -/
def bezierPoint (p0 p1 p2 p3 : Point) (t : ℝ) : Point :=
  let mt := 1 - t
  let mt2 := mt * mt
  let mt3 := mt2 * mt
  let t2 := t * t
  let t3 := t2 * t
  ⟨mt3 * p0.x + 3 * mt2 * t * p1.x + 3 * mt * t2 * p2.x + t3 * p3.x,
   mt3 * p0.y + 3 * mt2 * t * p1.y + 3 * mt * t2 * p2.y + t3 * p3.y⟩

/-- bezierTangent from bezier.ts: the analytic derivative of the cubic. -/
def bezierTangent (p0 p1 p2 p3 : Point) (t : ℝ) : Point :=
  let mt := 1 - t
  let mt2 := mt * mt
  let t2 := t * t
  ⟨3 * mt2 * (p1.x - p0.x) + 6 * mt * t * (p2.x - p1.x) + 3 * t2 * (p3.x - p2.x),
   3 * mt2 * (p1.y - p0.y) + 6 * mt * t * (p2.y - p1.y) + 3 * t2 * (p3.y - p2.y)⟩

/-- normalize from bezier.ts: divides by the length unless it is zero. -/
def normalize (v : Point) : Point :=
  let len := Real.sqrt (v.x * v.x + v.y * v.y)
  if len = 0 then ⟨0, 0⟩ else ⟨v.x / len, v.y / len⟩

/-- magnitude from bezier.ts. -/
def magnitude (v : Point) : ℝ :=
  Real.sqrt (v.x * v.x + v.y * v.y)

/-- sampleBezierCurve from bezier.ts: the loop pushes, for i = 0 .. steps in
increasing order, the curve point at t = i / steps. -/
def sampleBezierCurve (p0 p1 p2 p3 : Point) (steps : ℕ) : List Point :=
  (List.range (steps + 1)).map fun i : ℕ =>
    bezierPoint p0 p1 p2 p3 ((i : ℝ) / (steps : ℝ))

/-- TangentData from bezier.ts. -/
structure TangentData where
  point : Point
  tangent : Point
  normalizedTangent : Point

/-- sampleTangents from bezier.ts: for i = 0 .. count, point, derivative and
normalized derivative at t = i / count. -/
def sampleTangents (p0 p1 p2 p3 : Point) (count : ℕ) : List TangentData :=
  (List.range (count + 1)).map fun i : ℕ =>
    let t := (i : ℝ) / (count : ℝ)
    { point := bezierPoint p0 p1 p2 p3 t
      tangent := bezierTangent p0 p1 p2 p3 t
      normalizedTangent := normalize (bezierTangent p0 p1 p2 p3 t) }

/-- SpringState from physics.ts. -/
structure SpringState where
  position : Point
  velocity : Point
  target : Point

/-- SpringConfig from physics.ts. -/
structure SpringConfig where
  stiffness : ℝ
  damping : ℝ

/-- DEFAULT_SPRING_CONFIG from physics.ts. -/
def defaultSpringConfig : SpringConfig := ⟨120, 12⟩

/-- createSpringState from physics.ts. -/
def createSpringState (initialPosition : Point) : SpringState :=
  { position := initialPosition
    velocity := ⟨0, 0⟩
    target := initialPosition }

/-- updateSpring from physics.ts: semi-implicit Euler step. -/
def updateSpring (state : SpringState) (config : SpringConfig) (deltaTime : ℝ) :
    SpringState :=
  let displacementX := state.position.x - state.target.x
  let displacementY := state.position.y - state.target.y
  let accelerationX := -config.stiffness * displacementX - config.damping * state.velocity.x
  let accelerationY := -config.stiffness * displacementY - config.damping * state.velocity.y
  let newVelocity : Point :=
    ⟨state.velocity.x + accelerationX * deltaTime,
     state.velocity.y + accelerationY * deltaTime⟩
  let newPosition : Point :=
    ⟨state.position.x + newVelocity.x * deltaTime,
     state.position.y + newVelocity.y * deltaTime⟩
  { position := newPosition
    velocity := newVelocity
    target := state.target }

/-- setSpringTarget from physics.ts. -/
def setSpringTarget (state : SpringState) (target : Point) : SpringState :=
  { state with target := target }

/-- C1: one integrator step computes the acceleration
a = -stiffness * (position - target) - damping * velocity componentwise,
updates the velocity first as v2 = v + a * dt, then the position with the
updated velocity as p2 = p + v2 * dt, and passes the target through
unchanged. -/
theorem updateSpring_semi_implicit_euler
    (s : SpringState) (c : SpringConfig) (dt : ℝ) :
    updateSpring s c dt =
      { position :=
          ⟨s.position.x +
              (s.velocity.x +
                (-c.stiffness * (s.position.x - s.target.x) - c.damping * s.velocity.x) * dt) * dt,
            s.position.y +
              (s.velocity.y +
                (-c.stiffness * (s.position.y - s.target.y) - c.damping * s.velocity.y) * dt) * dt⟩
        velocity :=
          ⟨s.velocity.x +
              (-c.stiffness * (s.position.x - s.target.x) - c.damping * s.velocity.x) * dt,
            s.velocity.y +
              (-c.stiffness * (s.position.y - s.target.y) - c.damping * s.velocity.y) * dt⟩
        target := s.target } := rfl

/-- The curve starts at the first control point. -/
theorem bezierPoint_at_zero (p0 p1 p2 p3 : Point) :
    bezierPoint p0 p1 p2 p3 0 = p0 := by
  apply Point.ext <;> simp [bezierPoint]

/-- The curve ends at the last control point. -/
theorem bezierPoint_at_one (p0 p1 p2 p3 : Point) :
    bezierPoint p0 p1 p2 p3 1 = p3 := by
  apply Point.ext <;> simp [bezierPoint]

/-- C4: evaluation at parameter 0 returns exactly P0 and evaluation at
parameter 1 returns exactly P3, for all control points. -/
theorem bezierPoint_endpoints (p0 p1 p2 p3 : Point) :
    bezierPoint p0 p1 p2 p3 0 = p0 ∧ bezierPoint p0 p1 p2 p3 1 = p3 :=
  ⟨bezierPoint_at_zero p0 p1 p2 p3, bezierPoint_at_one p0 p1 p2 p3⟩

/-- Indexing a range list. -/
theorem range_getElem? (n i : ℕ) :
    (List.range n)[i]? = if i < n then some i else none := by
  rcases lt_or_ge i n with h | h
  · rw [List.getElem?_eq_getElem (by simpa using h)]
    simp [List.getElem_range, h]
  · rw [List.getElem?_eq_none (by simpa using h)]
    simp [Nat.not_lt.mpr h]

/-- Element i of the curve sample is the curve point at t = i / steps. -/
theorem sampleBezierCurve_getElem? (p0 p1 p2 p3 : Point) (steps i : ℕ) :
    (sampleBezierCurve p0 p1 p2 p3 steps)[i]? =
      if i ≤ steps then some (bezierPoint p0 p1 p2 p3 ((i : ℝ) / (steps : ℝ)))
      else none := by
  rw [sampleBezierCurve, List.getElem?_map, range_getElem?]
  rcases le_or_lt i steps with h | h
  · rw [if_pos (Nat.lt_succ_of_le h), if_pos h, Option.map_some']
  · rw [if_neg (by omega), if_neg (by omega), Option.map_none']

/-- C5: for steps at least 1, the curve sampler returns exactly steps + 1
points, the point at index i being the evaluation at t = i / steps (so the
t-values are evenly spaced from 0 to 1 inclusive, in increasing order); the
first point equals P0 and the last equals P3. -/
theorem sampleBezierCurve_spec (p0 p1 p2 p3 : Point) (steps : ℕ) (h : 1 ≤ steps) :
    (sampleBezierCurve p0 p1 p2 p3 steps).length = steps + 1 ∧
    (∀ i : ℕ, (sampleBezierCurve p0 p1 p2 p3 steps)[i]? =
      if i ≤ steps then some (bezierPoint p0 p1 p2 p3 ((i : ℝ) / (steps : ℝ)))
      else none) ∧
    (sampleBezierCurve p0 p1 p2 p3 steps).head? = some p0 ∧
    (sampleBezierCurve p0 p1 p2 p3 steps).getLast? = some p3 := by
  have hlen : (sampleBezierCurve p0 p1 p2 p3 steps).length = steps + 1 := by
    simp [sampleBezierCurve]
  refine ⟨hlen, sampleBezierCurve_getElem? p0 p1 p2 p3 steps, ?_, ?_⟩
  · rw [List.head?_eq_getElem?, sampleBezierCurve_getElem?, if_pos (Nat.zero_le steps)]
    norm_num [bezierPoint_at_zero]
  · rw [List.getLast?_eq_getElem?, hlen, Nat.add_sub_cancel,
      sampleBezierCurve_getElem?, if_pos (le_refl steps)]
    have hs : (steps : ℝ) ≠ 0 := Nat.cast_ne_zero.mpr (by omega)
    rw [div_self hs, bezierPoint_at_one]

/-- Witness for the curve sampler specification at steps = 1. -/
theorem sampleBezierCurve_spec_witness :
    1 ≤ 1 ∧
    ((sampleBezierCurve ⟨0, 0⟩ ⟨1, 2⟩ ⟨3, 4⟩ ⟨5, 6⟩ 1).length = 1 + 1 ∧
     (∀ i : ℕ, (sampleBezierCurve ⟨0, 0⟩ ⟨1, 2⟩ ⟨3, 4⟩ ⟨5, 6⟩ 1)[i]? =
       if i ≤ 1 then some (bezierPoint ⟨0, 0⟩ ⟨1, 2⟩ ⟨3, 4⟩ ⟨5, 6⟩ ((i : ℝ) / ((1 : ℕ) : ℝ)))
       else none) ∧
     (sampleBezierCurve ⟨0, 0⟩ ⟨1, 2⟩ ⟨3, 4⟩ ⟨5, 6⟩ 1).head? = some ⟨0, 0⟩ ∧
     (sampleBezierCurve ⟨0, 0⟩ ⟨1, 2⟩ ⟨3, 4⟩ ⟨5, 6⟩ 1).getLast? = some ⟨5, 6⟩) :=
  ⟨le_refl 1, sampleBezierCurve_spec ⟨0, 0⟩ ⟨1, 2⟩ ⟨3, 4⟩ ⟨5, 6⟩ 1 (le_refl 1)⟩

/-- A zero magnitude forces the zero vector. -/
theorem magnitude_eq_zero_iff (v : Point) : magnitude v = 0 ↔ v = ⟨0, 0⟩ := by
  constructor
  · intro h
    have harg : v.x * v.x + v.y * v.y = 0 := by
      have hle : v.x * v.x + v.y * v.y ≤ 0 := Real.sqrt_eq_zero'.mp h
      nlinarith [mul_self_nonneg v.x, mul_self_nonneg v.y]
    have hx : v.x = 0 := by nlinarith [mul_self_nonneg v.x, mul_self_nonneg v.y]
    have hy : v.y = 0 := by nlinarith [mul_self_nonneg v.x, mul_self_nonneg v.y]
    exact Point.ext hx hy
  · intro h
    subst h
    simp [magnitude]

/-- C6: normalize returns a unit vector pointing the same way as any nonzero
input, returns the zero vector exactly when the input magnitude is zero, and
on the concrete inputs of the spec normalize (0,0) = (0,0) and
normalize (3,4) = (0.6, 0.8); the length-zero branch means no division by
zero ever occurs. -/
theorem normalize_spec (v : Point) :
    (v ≠ ⟨0, 0⟩ →
      magnitude (normalize v) = 1 ∧
      ∃ c : ℝ, 0 < c ∧ normalize v = ⟨c * v.x, c * v.y⟩) ∧
    (normalize v = ⟨0, 0⟩ ↔ magnitude v = 0) ∧
    normalize ⟨0, 0⟩ = ⟨0, 0⟩ ∧
    normalize ⟨3, 4⟩ = ⟨0.6, 0.8⟩ := by
  have hsqrt25 : Real.sqrt ((3 : ℝ) * 3 + 4 * 4) = 5 := by
    rw [show (3 : ℝ) * 3 + 4 * 4 = 5 ^ 2 by norm_num]
    exact Real.sqrt_sq (by norm_num)
  refine ⟨?_, ?_, ?_, ?_⟩
  · intro hv
    have hm : magnitude v ≠ 0 := fun h => hv ((magnitude_eq_zero_iff v).mp h)
    have hlen : Real.sqrt (v.x * v.x + v.y * v.y) ≠ 0 := hm
    have hpos : 0 < Real.sqrt (v.x * v.x + v.y * v.y) :=
      lt_of_le_of_ne (Real.sqrt_nonneg _) (Ne.symm hlen)
    have hself : Real.sqrt (v.x * v.x + v.y * v.y) *
        Real.sqrt (v.x * v.x + v.y * v.y) = v.x * v.x + v.y * v.y :=
      Real.mul_self_sqrt (add_nonneg (mul_self_nonneg _) (mul_self_nonneg _))
    have hnv : normalize v =
        ⟨v.x / Real.sqrt (v.x * v.x + v.y * v.y),
         v.y / Real.sqrt (v.x * v.x + v.y * v.y)⟩ := by
      rw [normalize, if_neg hlen]
    constructor
    · rw [hnv, magnitude]
      have : v.x / Real.sqrt (v.x * v.x + v.y * v.y) *
          (v.x / Real.sqrt (v.x * v.x + v.y * v.y)) +
          v.y / Real.sqrt (v.x * v.x + v.y * v.y) *
          (v.y / Real.sqrt (v.x * v.x + v.y * v.y)) = 1 := by
        field_simp
        linarith [hself]
      rw [this, Real.sqrt_one]
    · refine ⟨1 / Real.sqrt (v.x * v.x + v.y * v.y), one_div_pos.mpr hpos, ?_⟩
      rw [hnv]
      apply Point.ext <;> simp <;> ring
  · constructor
    · intro h
      by_cases hlen : Real.sqrt (v.x * v.x + v.y * v.y) = 0
      · exact hlen
      · exfalso
        rw [normalize, if_neg hlen] at h
        have hx := congrArg Point.x h
        have hy := congrArg Point.y h
        simp only at hx hy
        have hx0 : v.x = 0 := by
          rcases div_eq_zero_iff.mp hx with h0 | h0
          · exact h0
          · exact absurd h0 hlen
        have hy0 : v.y = 0 := by
          rcases div_eq_zero_iff.mp hy with h0 | h0
          · exact h0
          · exact absurd h0 hlen
        apply hlen
        rw [hx0, hy0]
        simp
    · intro h
      have hlen : Real.sqrt (v.x * v.x + v.y * v.y) = 0 := h
      rw [normalize, if_pos hlen]
  · rw [normalize]
    norm_num
  · rw [normalize]
    simp only [Point.mk.injEq]
    rw [if_neg (by rw [hsqrt25]; norm_num)]
    rw [hsqrt25]
    norm_num

/-- Witness for the normalize specification at v = (3,4). -/
theorem normalize_spec_witness :
    (Point.mk 3 4 ≠ ⟨0, 0⟩) ∧
    (magnitude (normalize ⟨3, 4⟩) = 1 ∧
      ∃ c : ℝ, 0 < c ∧ normalize ⟨3, 4⟩ = ⟨c * 3, c * 4⟩) := by
  have h : Point.mk 3 4 ≠ ⟨0, 0⟩ := by
    intro hh
    have := congrArg Point.x hh
    norm_num at this
  exact ⟨h, (normalize_spec ⟨3, 4⟩).1 h⟩

/-- C8 counterexample: with P1 = P0 = (0,0) and P2 = P3 = (1,0), evaluation
at t = 1/3 gives x = 7/27, not the straight-line interpolation value
x = 1/3 = 9/27; the degenerate cubic traces the segment with a smoothstep
parameter, not linearly in t. -/
theorem bezier_degenerate_not_lerp :
    bezierPoint ⟨0, 0⟩ ⟨0, 0⟩ ⟨1, 0⟩ ⟨1, 0⟩ (1 / 3) ≠
      ⟨(1 - 1 / 3) * 0 + (1 / 3) * 1, (1 - 1 / 3) * 0 + (1 / 3) * 0⟩ := by
  intro h
  have hx := congrArg Point.x h
  simp only [bezierPoint] at hx
  norm_num at hx

/-- C8 amended: with P1 = P0 and P2 = P3 and t in [0,1], evaluation lands on
the straight segment between P0 and P3: it is the convex combination with
coefficient s = t * t * (3 - 2 * t), which lies in [0,1]. -/
theorem bezier_degenerate_on_segment (p0 p3 : Point) (t : ℝ)
    (h0 : 0 ≤ t) (h1 : t ≤ 1) :
    bezierPoint p0 p0 p3 p3 t =
      ⟨(1 - t * t * (3 - 2 * t)) * p0.x + t * t * (3 - 2 * t) * p3.x,
       (1 - t * t * (3 - 2 * t)) * p0.y + t * t * (3 - 2 * t) * p3.y⟩ ∧
    0 ≤ t * t * (3 - 2 * t) ∧ t * t * (3 - 2 * t) ≤ 1 := by
  refine ⟨?_, ?_, ?_⟩
  · apply Point.ext <;> simp [bezierPoint] <;> ring
  · nlinarith [mul_self_nonneg t]
  · nlinarith [mul_self_nonneg (1 - t), mul_self_nonneg t,
      mul_nonneg (mul_nonneg (sub_nonneg.mpr h1) (sub_nonneg.mpr h1)) h0]

/-- Witness for the amended degenerate-curve claim at t = 1/2. -/
theorem bezier_degenerate_on_segment_witness :
    ((0 : ℝ) ≤ 1 / 2 ∧ (1 / 2 : ℝ) ≤ 1) ∧
    (bezierPoint ⟨0, 0⟩ ⟨0, 0⟩ ⟨8, 4⟩ ⟨8, 4⟩ (1 / 2) =
      ⟨(1 - (1 / 2 : ℝ) * (1 / 2) * (3 - 2 * (1 / 2))) * (Point.mk 0 0).x +
          (1 / 2 : ℝ) * (1 / 2) * (3 - 2 * (1 / 2)) * (Point.mk 8 4).x,
        (1 - (1 / 2 : ℝ) * (1 / 2) * (3 - 2 * (1 / 2))) * (Point.mk 0 0).y +
          (1 / 2 : ℝ) * (1 / 2) * (3 - 2 * (1 / 2)) * (Point.mk 8 4).y⟩ ∧
      0 ≤ (1 / 2 : ℝ) * (1 / 2) * (3 - 2 * (1 / 2)) ∧
      (1 / 2 : ℝ) * (1 / 2) * (3 - 2 * (1 / 2)) ≤ 1) :=
  ⟨⟨by norm_num, by norm_num⟩,
    bezier_degenerate_on_segment ⟨0, 0⟩ ⟨8, 4⟩ (1 / 2) (by norm_num) (by norm_num)⟩

/-- getDistance from BezierCanvas.tsx. -/
def getDistance (p1 p2 : Point) : ℝ :=
  Real.sqrt ((p1.x - p2.x) ^ 2 + (p1.y - p2.y) ^ 2)

/-- The mutable refs of the BezierCanvas component that the geometry logic
touches: the fixed endpoints, the two base positions and the two springs. -/
structure CanvasState where
  p0 : Point
  p3 : Point
  baseP1 : Point
  baseP2 : Point
  spring1 : SpringState
  spring2 : SpringState

/-- initializePositions from BezierCanvas.tsx, as a transition on the refs:
margin 100, endpoints on the horizontal midline, bases one and two thirds of
the way across offset 150 up and down, and both springs recreated at their
base. -/
def initializePositions (width height : ℝ) (s : CanvasState) : CanvasState :=
  let margin : ℝ := 100
  let centerY := height / 2
  let third := (width - 2 * margin) / 3
  let b1 : Point := ⟨margin + third, centerY - 150⟩
  let b2 : Point := ⟨margin + 2 * third, centerY + 150⟩
  { s with
    p0 := ⟨margin, centerY⟩
    p3 := ⟨width - margin, centerY⟩
    baseP1 := b1
    baseP2 := b2
    spring1 := createSpringState b1
    spring2 := createSpringState b2 }

/-- handlePointerMove from BezierCanvas.tsx, as a transition on the refs,
given the client pointer coordinates and the bounding rectangle of the
container. -/
def handlePointerMove (clientX clientY rectLeft rectTop rectWidth rectHeight : ℝ)
    (s : CanvasState) : CanvasState :=
  let mousePos : Point := ⟨clientX - rectLeft, clientY - rectTop⟩
  let distToP1 := getDistance mousePos s.spring1.position
  let distToP2 := getDistance mousePos s.spring2.position
  let centerX := rectWidth / 2
  let centerY := rectHeight / 2
  let sensitivity : ℝ := 0.3
  let offset : Point :=
    ⟨(clientX - rectLeft - centerX) * sensitivity,
     (clientY - rectTop - centerY) * sensitivity⟩
  if distToP1 < distToP2 then
    { s with
      spring1 := setSpringTarget s.spring1
        ⟨s.baseP1.x + offset.x * 0.8, s.baseP1.y + offset.y * 1.2⟩
      spring2 := setSpringTarget s.spring2 s.baseP2 }
  else
    { s with
      spring2 := setSpringTarget s.spring2
        ⟨s.baseP2.x + offset.x * 0.8, s.baseP2.y + offset.y * 0.8⟩
      spring1 := setSpringTarget s.spring1 s.baseP1 }

/-- The physics part of a firing animation tick in BezierCanvas.tsx: both
springs advance by updateSpring with the default config. -/
def animatePhysics (dt : ℝ) (s : CanvasState) : CanvasState :=
  { s with
    spring1 := updateSpring s.spring1 defaultSpringConfig dt
    spring2 := updateSpring s.spring2 defaultSpringConfig dt }

/-- C3: a pointer update compares the Euclidean distances from the pointer
to the current spring positions; the nearer spring receives the target base
plus the displacement of the pointer from the surface center scaled by 0.3
and then per axis (0.8 and 1.2 for P1, 0.8 and 0.8 for P2), while the other
spring is retargeted to its own base; the exactly equidistant case falls
into the else branch, so P2 is the designated winner of ties. -/
theorem handlePointerMove_nearest (cx cy l tp w h : ℝ) (s : CanvasState) :
    (getDistance ⟨cx - l, cy - tp⟩ s.spring1.position <
        getDistance ⟨cx - l, cy - tp⟩ s.spring2.position →
      (handlePointerMove cx cy l tp w h s).spring1 =
        setSpringTarget s.spring1
          ⟨s.baseP1.x + (cx - l - w / 2) * 0.3 * 0.8,
           s.baseP1.y + (cy - tp - h / 2) * 0.3 * 1.2⟩ ∧
      (handlePointerMove cx cy l tp w h s).spring2 =
        setSpringTarget s.spring2 s.baseP2) ∧
    (getDistance ⟨cx - l, cy - tp⟩ s.spring2.position <
        getDistance ⟨cx - l, cy - tp⟩ s.spring1.position →
      (handlePointerMove cx cy l tp w h s).spring2 =
        setSpringTarget s.spring2
          ⟨s.baseP2.x + (cx - l - w / 2) * 0.3 * 0.8,
           s.baseP2.y + (cy - tp - h / 2) * 0.3 * 0.8⟩ ∧
      (handlePointerMove cx cy l tp w h s).spring1 =
        setSpringTarget s.spring1 s.baseP1) ∧
    (getDistance ⟨cx - l, cy - tp⟩ s.spring1.position =
        getDistance ⟨cx - l, cy - tp⟩ s.spring2.position →
      (handlePointerMove cx cy l tp w h s).spring2 =
        setSpringTarget s.spring2
          ⟨s.baseP2.x + (cx - l - w / 2) * 0.3 * 0.8,
           s.baseP2.y + (cy - tp - h / 2) * 0.3 * 0.8⟩ ∧
      (handlePointerMove cx cy l tp w h s).spring1 =
        setSpringTarget s.spring1 s.baseP1) := by
  refine ⟨fun hlt => ?_, fun hgt => ?_, fun heq => ?_⟩
  · rw [handlePointerMove, if_pos hlt]
    exact ⟨rfl, rfl⟩
  · rw [handlePointerMove, if_neg (not_lt.mpr (le_of_lt hgt))]
    exact ⟨rfl, rfl⟩
  · rw [handlePointerMove, if_neg (not_lt.mpr (le_of_eq heq.symm))]
    exact ⟨rfl, rfl⟩

/-- Witness for the pointer-update claim: pointer at the origin, spring1
currently at the origin and spring2 at distance 10, so spring1 wins. -/
theorem handlePointerMove_nearest_witness :
    (getDistance ⟨0 - 0, 0 - 0⟩
        (SpringState.mk ⟨0, 0⟩ ⟨0, 0⟩ ⟨0, 0⟩).position <
      getDistance ⟨0 - 0, 0 - 0⟩
        (SpringState.mk ⟨10, 0⟩ ⟨0, 0⟩ ⟨0, 0⟩).position) ∧
    ((handlePointerMove 0 0 0 0 200 100
        ⟨⟨0, 0⟩, ⟨0, 0⟩, ⟨1, 1⟩, ⟨2, 2⟩, ⟨⟨0, 0⟩, ⟨0, 0⟩, ⟨0, 0⟩⟩,
          ⟨⟨10, 0⟩, ⟨0, 0⟩, ⟨0, 0⟩⟩⟩).spring1 =
      setSpringTarget ⟨⟨0, 0⟩, ⟨0, 0⟩, ⟨0, 0⟩⟩
        ⟨(1 : ℝ) + (0 - 0 - 200 / 2) * 0.3 * 0.8,
         (1 : ℝ) + (0 - 0 - 100 / 2) * 0.3 * 1.2⟩ ∧
     (handlePointerMove 0 0 0 0 200 100
        ⟨⟨0, 0⟩, ⟨0, 0⟩, ⟨1, 1⟩, ⟨2, 2⟩, ⟨⟨0, 0⟩, ⟨0, 0⟩, ⟨0, 0⟩⟩,
          ⟨⟨10, 0⟩, ⟨0, 0⟩, ⟨0, 0⟩⟩⟩).spring2 =
      setSpringTarget ⟨⟨10, 0⟩, ⟨0, 0⟩, ⟨0, 0⟩⟩ ⟨2, 2⟩) := by
  have hd : getDistance ⟨0 - 0, 0 - 0⟩
      (SpringState.mk ⟨0, 0⟩ ⟨0, 0⟩ ⟨0, 0⟩).position <
      getDistance ⟨0 - 0, 0 - 0⟩
        (SpringState.mk ⟨10, 0⟩ ⟨0, 0⟩ ⟨0, 0⟩).position := by
    have h1 : getDistance ⟨0 - 0, 0 - 0⟩
        (SpringState.mk ⟨0, 0⟩ ⟨0, 0⟩ ⟨0, 0⟩).position = 0 := by
      simp [getDistance]
    have h2 : getDistance ⟨0 - 0, 0 - 0⟩
        (SpringState.mk ⟨10, 0⟩ ⟨0, 0⟩ ⟨0, 0⟩).position = 10 := by
      rw [getDistance]
      norm_num
      rw [show (100 : ℝ) = 10 ^ 2 by norm_num]
      exact Real.sqrt_sq (by norm_num)
    rw [h1, h2]
    norm_num
  exact ⟨hd,
    (handlePointerMove_nearest 0 0 0 0 200 100
      ⟨⟨0, 0⟩, ⟨0, 0⟩, ⟨1, 1⟩, ⟨2, 2⟩, ⟨⟨0, 0⟩, ⟨0, 0⟩, ⟨0, 0⟩⟩,
        ⟨⟨10, 0⟩, ⟨0, 0⟩, ⟨0, 0⟩⟩⟩).1 hd⟩

/-- C7: pointer updates and physics ticks leave the endpoints and the base
positions untouched; a resize recomputes the endpoints and both bases from
the new width and height and hard-resets each spring to position = target =
its new base with zero velocity. -/
theorem endpoints_fixed_except_resize
    (cx cy l tp w h dt width height : ℝ) (s : CanvasState) :
    ((handlePointerMove cx cy l tp w h s).p0 = s.p0 ∧
     (handlePointerMove cx cy l tp w h s).p3 = s.p3 ∧
     (handlePointerMove cx cy l tp w h s).baseP1 = s.baseP1 ∧
     (handlePointerMove cx cy l tp w h s).baseP2 = s.baseP2) ∧
    ((animatePhysics dt s).p0 = s.p0 ∧ (animatePhysics dt s).p3 = s.p3) ∧
    initializePositions width height s =
      { s with
        p0 := ⟨100, height / 2⟩
        p3 := ⟨width - 100, height / 2⟩
        baseP1 := ⟨100 + (width - 2 * 100) / 3, height / 2 - 150⟩
        baseP2 := ⟨100 + 2 * ((width - 2 * 100) / 3), height / 2 + 150⟩
        spring1 :=
          ⟨⟨100 + (width - 2 * 100) / 3, height / 2 - 150⟩, ⟨0, 0⟩,
            ⟨100 + (width - 2 * 100) / 3, height / 2 - 150⟩⟩
        spring2 :=
          ⟨⟨100 + 2 * ((width - 2 * 100) / 3), height / 2 + 150⟩, ⟨0, 0⟩,
            ⟨100 + 2 * ((width - 2 * 100) / 3), height / 2 + 150⟩⟩ } := by
  refine ⟨?_, ⟨rfl, rfl⟩, rfl⟩
  rw [handlePointerMove]
  split <;> exact ⟨rfl, rfl, rfl, rfl⟩

/-- One drawing instruction issued against the 2D surface: a stroked line
segment or a filled dot of a given radius. -/
inductive DrawOp where
  | line : Point → Point → DrawOp
  | dot : Point → ℝ → DrawOp

/-- drawTangents from BezierCanvas.tsx: samples the tangents with count 8
and, per sample, strokes a segment of length 80 in the normalized tangent
direction from the sample point and fills a dot of radius 3 there. -/
def drawTangents (p0 p1 p2 p3 : Point) : List DrawOp :=
  (sampleTangents p0 p1 p2 p3 8).flatMap fun td =>
    [DrawOp.line td.point
      ⟨td.point.x + td.normalizedTangent.x * 80, td.point.y + td.normalizedTangent.y * 80⟩,
     DrawOp.dot td.point 3]

/-- Element i of the tangent sample: point, derivative and normalized
derivative at t = i / count. -/
theorem sampleTangents_getElem? (p0 p1 p2 p3 : Point) (count i : ℕ) :
    (sampleTangents p0 p1 p2 p3 count)[i]? =
      if i ≤ count then
        some
          { point := bezierPoint p0 p1 p2 p3 ((i : ℝ) / (count : ℝ))
            tangent := bezierTangent p0 p1 p2 p3 ((i : ℝ) / (count : ℝ))
            normalizedTangent :=
              normalize (bezierTangent p0 p1 p2 p3 ((i : ℝ) / (count : ℝ))) }
      else none := by
  rw [sampleTangents, List.getElem?_map, range_getElem?]
  rcases le_or_lt i count with h | h
  · rw [if_pos (Nat.lt_succ_of_le h), if_pos h, Option.map_some']
  · rw [if_neg (by omega), if_neg (by omega), Option.map_none']

/-- C9 counterexample: with count 8 the pipeline draws a tangent at nine
parameter values, not eight: at the concrete control points below the
tangent sample has nine entries and drawTangents issues nine line strokes
and nine dots. -/
theorem drawTangents_nine_not_eight :
    (sampleTangents ⟨0, 0⟩ ⟨0, 100⟩ ⟨100, 100⟩ ⟨100, 0⟩ 8).length = 9 ∧
    (drawTangents ⟨0, 0⟩ ⟨0, 100⟩ ⟨100, 100⟩ ⟨100, 0⟩).length = 18 ∧
    (9 : ℕ) ≠ 8 := by
  refine ⟨by simp [sampleTangents], ?_, by norm_num⟩
  rw [drawTangents, List.length_flatMap, sampleTangents]
  rw [List.map_map]
  simp only [Function.comp_def, List.length_cons, List.length_nil]
  rfl

/-- C9 amended: the pipeline draws tangents at the nine evenly spaced
parameter values t = i / 8 for i = 0 .. 8, one line stroke of on-screen
length 80 in the normalized tangent direction plus one marker dot per value;
in general sampleTangents returns count + 1 entries carrying the point, the
raw derivative and the normalized derivative at t = i / count. -/
theorem drawTangents_spec (p0 p1 p2 p3 : Point) (count : ℕ) :
    (sampleTangents p0 p1 p2 p3 count).length = count + 1 ∧
    (∀ i : ℕ, (sampleTangents p0 p1 p2 p3 count)[i]? =
      if i ≤ count then
        some
          { point := bezierPoint p0 p1 p2 p3 ((i : ℝ) / (count : ℝ))
            tangent := bezierTangent p0 p1 p2 p3 ((i : ℝ) / (count : ℝ))
            normalizedTangent :=
              normalize (bezierTangent p0 p1 p2 p3 ((i : ℝ) / (count : ℝ))) }
      else none) ∧
    drawTangents p0 p1 p2 p3 =
      (List.range 9).flatMap fun i : ℕ =>
        [DrawOp.line (bezierPoint p0 p1 p2 p3 ((i : ℝ) / 8))
          ⟨(bezierPoint p0 p1 p2 p3 ((i : ℝ) / 8)).x +
              (normalize (bezierTangent p0 p1 p2 p3 ((i : ℝ) / 8))).x * 80,
            (bezierPoint p0 p1 p2 p3 ((i : ℝ) / 8)).y +
              (normalize (bezierTangent p0 p1 p2 p3 ((i : ℝ) / 8))).y * 80⟩,
         DrawOp.dot (bezierPoint p0 p1 p2 p3 ((i : ℝ) / 8)) 3] := by
  refine ⟨by simp [sampleTangents], sampleTangents_getElem? p0 p1 p2 p3 count, ?_⟩
  rw [drawTangents, sampleTangents, List.flatMap_map]
  norm_num

end

/-- Truncation toward zero, the rounding used by the JavaScript remainder. -/
def jsTrunc (q : ℚ) : ℤ :=
  if 0 ≤ q then ⌊q⌋ else ⌈q⌉

/-- The JavaScript % operator on finite operands: a - b * trunc (a / b). -/
def jsRem (a b : ℚ) : ℚ :=
  a - b * (jsTrunc (a / b) : ℚ)

/-- The two time refs of the animation loop in BezierCanvas.tsx. Both start
at 0; lastTime = 0 doubles as the JavaScript-falsy "no previous tick" mark,
exactly as in the source. -/
structure SchedState where
  lastRenderTime : ℚ
  lastTime : ℚ

/-- One animation signal with timestamp t in BezierCanvas.tsx: none when the
frame is skipped by the FPS throttle, otherwise the clamped physics delta
time in seconds together with the advanced time refs. -/
def animateStep (frameInterval t : ℚ) (s : SchedState) : Option (ℚ × SchedState) :=
  let elapsed := t - s.lastRenderTime
  if elapsed < frameInterval then none
  else
    let newLastRender := t - jsRem elapsed frameInterval
    let deltaTime := if s.lastTime = 0 then 0.016 else (t - s.lastTime) / 1000
    let dt := min deltaTime 0.033
    some (dt, ⟨newLastRender, t⟩)

/-- Feeding a burst of signal timestamps through the scheduler, collecting
the timestamp and physics delta time of every firing tick. -/
def runSched (frameInterval : ℚ) : List ℚ → SchedState → List (ℚ × ℚ)
  | [], _ => []
  | t :: ts, s =>
    match animateStep frameInterval t s with
    | none => runSched frameInterval ts s
    | some (dt, s2) => (t, dt) :: runSched frameInterval ts s2

/-- C2: a signal with t - lastTick below the target interval is skipped;
otherwise the tick fires, lastTick becomes t - ((t - lastTick) mod interval),
and the physics delta time is min of 0.033 and (t - previousTickTimestamp) /
1000, or 0.016 when no tick has fired before; at 60 FPS the burst
0, 5, 10, 17, 34 fires exactly at 17 and 34 with delta times 0.016 and
0.017. -/
theorem animateStep_spec (frameInterval t : ℚ) (s : SchedState) :
    (t - s.lastRenderTime < frameInterval → animateStep frameInterval t s = none) ∧
    (frameInterval ≤ t - s.lastRenderTime →
      animateStep frameInterval t s =
        some (min (if s.lastTime = 0 then 0.016 else (t - s.lastTime) / 1000) 0.033,
          ⟨t - jsRem (t - s.lastRenderTime) frameInterval, t⟩)) ∧
    runSched (1000 / 60) [0, 5, 10, 17, 34] ⟨0, 0⟩ =
      [(17, 0.016), (34, 0.017)] := by
  refine ⟨fun hlt => ?_, fun hge => ?_,
    by norm_num [runSched, animateStep, jsRem, jsTrunc]⟩
  · rw [animateStep, if_pos hlt]
  · rw [animateStep, if_neg (not_lt.mpr hge)]

/-- Witness for the scheduler claim: at interval 1000/60 the signal at t = 17
from the initial state fires with delta time 0.016. -/
theorem animateStep_spec_witness :
    ((1000 / 60 : ℚ) ≤ 17 - (SchedState.mk 0 0).lastRenderTime) ∧
    animateStep (1000 / 60) 17 ⟨0, 0⟩ =
      some (min (if (SchedState.mk 0 0).lastTime = 0 then 0.016
          else (17 - (SchedState.mk 0 0).lastTime) / 1000) 0.033,
        ⟨17 - jsRem (17 - (SchedState.mk 0 0).lastRenderTime) (1000 / 60), 17⟩) := by
  have h : (1000 / 60 : ℚ) ≤ 17 - (SchedState.mk 0 0).lastRenderTime := by norm_num
  exact ⟨h, (animateStep_spec (1000 / 60) 17 ⟨0, 0⟩).2.1 h⟩

noncomputable section

/-- An IEEE-style JavaScript number: NaN, an infinity, or a finite value.
This finer model is used where the behaviour of the source depends on NaN,
which the real-number model cannot express. -/
inductive JSNum where
  | nan : JSNum
  | inf : JSNum
  | ninf : JSNum
  | fin : ℝ → JSNum

instance : DecidableEq JSNum := Classical.decEq _

/-- IEEE negation. -/
def jsNeg : JSNum → JSNum
  | .nan => .nan
  | .inf => .ninf
  | .ninf => .inf
  | .fin a => .fin (-a)

/-- IEEE addition: NaN propagates, opposite infinities give NaN. -/
def jsAdd : JSNum → JSNum → JSNum
  | .nan, _ => .nan
  | _, .nan => .nan
  | .inf, .ninf => .nan
  | .ninf, .inf => .nan
  | .inf, _ => .inf
  | _, .inf => .inf
  | .ninf, _ => .ninf
  | _, .ninf => .ninf
  | .fin a, .fin b => .fin (a + b)

/-- IEEE subtraction. -/
def jsSub (a b : JSNum) : JSNum := jsAdd a (jsNeg b)

/-- IEEE multiplication: NaN propagates, infinity times zero gives NaN. -/
def jsMul : JSNum → JSNum → JSNum
  | .nan, _ => .nan
  | _, .nan => .nan
  | .inf, .inf => .inf
  | .inf, .ninf => .ninf
  | .ninf, .inf => .ninf
  | .ninf, .ninf => .inf
  | .inf, .fin b => if b = 0 then .nan else if 0 < b then .inf else .ninf
  | .fin a, .inf => if a = 0 then .nan else if 0 < a then .inf else .ninf
  | .ninf, .fin b => if b = 0 then .nan else if 0 < b then .ninf else .inf
  | .fin a, .ninf => if a = 0 then .nan else if 0 < a then .ninf else .inf
  | .fin a, .fin b => .fin (a * b)

/-- IEEE division: NaN propagates, 0 / 0 and infinity over infinity give
NaN, a nonzero finite value over zero gives a signed infinity. -/
def jsDiv : JSNum → JSNum → JSNum
  | .nan, _ => .nan
  | _, .nan => .nan
  | .inf, .inf => .nan
  | .inf, .ninf => .nan
  | .ninf, .inf => .nan
  | .ninf, .ninf => .nan
  | .inf, .fin b => if 0 ≤ b then .inf else .ninf
  | .ninf, .fin b => if 0 ≤ b then .ninf else .inf
  | .fin _, .inf => .fin 0
  | .fin _, .ninf => .fin 0
  | .fin a, .fin b =>
      if b = 0 then (if a = 0 then .nan else if 0 < a then .inf else .ninf)
      else .fin (a / b)

/-- IEEE square root: NaN on NaN and on negative inputs. -/
def jsSqrt : JSNum → JSNum
  | .nan => .nan
  | .inf => .inf
  | .ninf => .nan
  | .fin a => if a < 0 then .nan else .fin (Real.sqrt a)

/-- A point whose coordinates are JavaScript numbers. -/
structure JSPoint where
  x : JSNum
  y : JSNum

/-- bezierPoint from bezier.ts over JavaScript numbers, operator for
operator. -/
def bezierPointF (p0 p1 p2 p3 : JSPoint) (t : JSNum) : JSPoint :=
  let mt := jsSub (.fin 1) t
  let mt2 := jsMul mt mt
  let mt3 := jsMul mt2 mt
  let t2 := jsMul t t
  let t3 := jsMul t2 t
  ⟨jsAdd (jsAdd (jsAdd (jsMul mt3 p0.x) (jsMul (jsMul (jsMul (.fin 3) mt2) t) p1.x))
      (jsMul (jsMul (jsMul (.fin 3) mt) t2) p2.x)) (jsMul t3 p3.x),
   jsAdd (jsAdd (jsAdd (jsMul mt3 p0.y) (jsMul (jsMul (jsMul (.fin 3) mt2) t) p1.y))
      (jsMul (jsMul (jsMul (.fin 3) mt) t2) p2.y)) (jsMul t3 p3.y)⟩

/-- bezierTangent from bezier.ts over JavaScript numbers. -/
def bezierTangentF (p0 p1 p2 p3 : JSPoint) (t : JSNum) : JSPoint :=
  let mt := jsSub (.fin 1) t
  let mt2 := jsMul mt mt
  let t2 := jsMul t t
  ⟨jsAdd (jsAdd (jsMul (jsMul (.fin 3) mt2) (jsSub p1.x p0.x))
      (jsMul (jsMul (jsMul (.fin 6) mt) t) (jsSub p2.x p1.x)))
      (jsMul (jsMul (.fin 3) t2) (jsSub p3.x p2.x)),
   jsAdd (jsAdd (jsMul (jsMul (.fin 3) mt2) (jsSub p1.y p0.y))
      (jsMul (jsMul (jsMul (.fin 6) mt) t) (jsSub p2.y p1.y)))
      (jsMul (jsMul (.fin 3) t2) (jsSub p3.y p2.y))⟩

/-- normalize from bezier.ts over JavaScript numbers: the strict-equality
test of the length against 0 is false for NaN, so a NaN length divides. -/
def normalizeF (v : JSPoint) : JSPoint :=
  let len := jsSqrt (jsAdd (jsMul v.x v.x) (jsMul v.y v.y))
  if len = .fin 0 then ⟨.fin 0, .fin 0⟩ else ⟨jsDiv v.x len, jsDiv v.y len⟩

/-- sampleBezierCurve from bezier.ts over JavaScript numbers: t = i / steps
with JavaScript division, unguarded for steps = 0. -/
def sampleBezierCurveF (p0 p1 p2 p3 : JSPoint) (steps : ℕ) : List JSPoint :=
  (List.range (steps + 1)).map fun i : ℕ =>
    bezierPointF p0 p1 p2 p3 (jsDiv (.fin i) (.fin steps))

/-- TangentData over JavaScript numbers. -/
structure TangentDataF where
  point : JSPoint
  tangent : JSPoint
  normalizedTangent : JSPoint

/-- sampleTangents from bezier.ts over JavaScript numbers. -/
def sampleTangentsF (p0 p1 p2 p3 : JSPoint) (count : ℕ) : List TangentDataF :=
  (List.range (count + 1)).map fun i : ℕ =>
    let t := jsDiv (.fin i) (.fin count)
    { point := bezierPointF p0 p1 p2 p3 t
      tangent := bezierTangentF p0 p1 p2 p3 t
      normalizedTangent := normalizeF (bezierTangentF p0 p1 p2 p3 t) }

/-- NaN absorbs on the left of addition. -/
theorem jsAdd_nan_left (x : JSNum) : jsAdd .nan x = .nan := by cases x <;> rfl

/-- NaN absorbs on the right of addition. -/
theorem jsAdd_nan_right (x : JSNum) : jsAdd x .nan = .nan := by cases x <;> rfl

/-- NaN absorbs on the left of multiplication. -/
theorem jsMul_nan_left (x : JSNum) : jsMul .nan x = .nan := by cases x <;> rfl

/-- NaN absorbs on the right of multiplication. -/
theorem jsMul_nan_right (x : JSNum) : jsMul x .nan = .nan := by cases x <;> rfl

/-- NaN absorbs on the right of division. -/
theorem jsDiv_nan_right (x : JSNum) : jsDiv x .nan = .nan := by cases x <;> rfl

/-- NaN absorbs on the right of subtraction. -/
theorem jsSub_nan_right (x : JSNum) : jsSub x .nan = .nan := by
  rw [jsSub]
  exact jsAdd_nan_right x

/-- Curve evaluation at a NaN parameter yields NaN on both coordinates. -/
theorem bezierPointF_nan (p0 p1 p2 p3 : JSPoint) :
    bezierPointF p0 p1 p2 p3 .nan = ⟨.nan, .nan⟩ := by
  simp [bezierPointF, jsSub_nan_right, jsMul_nan_left, jsMul_nan_right,
    jsAdd_nan_left, jsAdd_nan_right]

/-- Tangent evaluation at a NaN parameter yields NaN on both coordinates. -/
theorem bezierTangentF_nan (p0 p1 p2 p3 : JSPoint) :
    bezierTangentF p0 p1 p2 p3 .nan = ⟨.nan, .nan⟩ := by
  simp [bezierTangentF, jsSub_nan_right, jsMul_nan_left, jsMul_nan_right,
    jsAdd_nan_left, jsAdd_nan_right]

/-- Normalizing the all-NaN vector keeps it all NaN: the NaN length fails
the strict-equality zero test and NaN / NaN is NaN. -/
theorem normalizeF_nan : normalizeF ⟨.nan, .nan⟩ = ⟨.nan, .nan⟩ := by
  simp [normalizeF, jsMul_nan_left, jsAdd_nan_left, jsSqrt, jsDiv_nan_right]

/-- Dividing the finite zero by the finite zero is NaN. -/
theorem jsDiv_zero_zero : jsDiv (.fin 0) (.fin 0) = .nan := by
  simp [jsDiv]

/-- C10: with steps = 0 (and count = 0) the samplers do not return the
single point P0: the parameter 0 / 0 is NaN, so they return one sample
whose coordinates are all NaN, for any control points. -/
theorem sample_zero_steps_nan (p0 p1 p2 p3 : JSPoint) :
    sampleBezierCurveF p0 p1 p2 p3 0 = [⟨.nan, .nan⟩] ∧
    sampleTangentsF p0 p1 p2 p3 0 =
      [⟨⟨.nan, .nan⟩, ⟨.nan, .nan⟩, ⟨.nan, .nan⟩⟩] ∧
    (p0 ≠ ⟨.nan, .nan⟩ → sampleBezierCurveF p0 p1 p2 p3 0 ≠ [p0]) := by
  have hcurve : sampleBezierCurveF p0 p1 p2 p3 0 = [⟨.nan, .nan⟩] := by
    rw [sampleBezierCurveF, show List.range (0 + 1) = [0] from rfl]
    simp [jsDiv_zero_zero, bezierPointF_nan]
  refine ⟨hcurve, ?_, ?_⟩
  · rw [sampleTangentsF, show List.range (0 + 1) = [0] from rfl]
    simp [jsDiv_zero_zero, bezierPointF_nan, bezierTangentF_nan, normalizeF_nan]
  · intro hne h
    rw [hcurve] at h
    exact hne ((List.cons.injEq _ _ _ _).mp h).1.symm

/-- Witness for the NaN claim at concrete finite control points. -/
theorem sample_zero_steps_nan_witness :
    (JSPoint.mk (.fin 1) (.fin 2) ≠ ⟨.nan, .nan⟩) ∧
    sampleBezierCurveF ⟨.fin 1, .fin 2⟩ ⟨.fin 0, .fin 0⟩ ⟨.fin 0, .fin 0⟩
        ⟨.fin 0, .fin 0⟩ 0 ≠ [⟨.fin 1, .fin 2⟩] := by
  have h : JSPoint.mk (.fin 1) (.fin 2) ≠ ⟨.nan, .nan⟩ := by
    intro hh
    exact JSNum.noConfusion (congrArg JSPoint.x hh)
  exact ⟨h, (sample_zero_steps_nan ⟨.fin 1, .fin 2⟩ ⟨.fin 0, .fin 0⟩
    ⟨.fin 0, .fin 0⟩ ⟨.fin 0, .fin 0⟩).2.2 h⟩

end

end BezierApp
